import Mathlib

unseal Rat.add Rat.mul Rat.sub Rat.inv Rat.ofScientific

/-!
Shallow embedding of the heading-outline extraction pipeline
(`src/utils.py`, `src/document_types.py`, `src/detector.py`, `src/extractor.py`).

Conventions of the embedding:
* Python `str` is modelled as Lean `String` / `List Char`; character-class
  predicates (`\s`, `\w`, `isupper`, …) use the ASCII semantics, which is the
  relevant fragment for every heading/keyword decision in this code base.
* Python `float` is modelled as `ℚ` (all the scores in the source are sums,
  products and comparisons of decimal constants, so no rounding behaviour is
  load-bearing).
* The compiled regular expressions in `PATTERNS` and the detector are each
  hand-compiled into an explicit decidable matcher; alternation/backtracking
  becomes disjunction over all split points, `re.match` is anchored at the
  start, `re.search` is existential over start positions, and `$` matches at
  the end of the string or just before a final newline.
* Python's stable `list.sort` / `sorted` is modelled by `List.insertionSort`,
  which is also stable; for a total transitive comparison the stable sort is
  unique, so the two agree extensionally.
* Wall-clock timing (`processing_time`) and logging are environment effects
  with no influence on any other output field; they are omitted from the
  embedded result record.
-/

namespace PdfOutline

/-! ### Python string primitives (ASCII semantics) -/

/-- Python `\s` / `str.strip` whitespace class (ASCII fragment). -/
def isPyWs (c : Char) : Bool :=
  c = ' ' || c = '\t' || c = '\n' || c = '\r' || c = '\x0b' || c = '\x0c'

/-- Python `\w` word-character class (ASCII fragment). -/
def isWordChar (c : Char) : Bool :=
  c.isAlpha || c.isDigit || c = '_'

/-- Python `str.strip()` on a character list. -/
def pyStrip (l : List Char) : List Char :=
  ((l.dropWhile isPyWs).reverse.dropWhile isPyWs).reverse

/-- Python `str.lower()` (ASCII fragment). -/
def pyLower (l : List Char) : List Char :=
  l.map Char.toLower

/-- Python `str.strip()` on `String`. -/
def pyStripS (s : String) : String :=
  String.mk (pyStrip s.data)

/-- Python `str.lower()` on `String`. -/
def pyLowerS (s : String) : String :=
  String.mk (pyLower s.data)

/-- Python `needle in hay` substring containment on character lists. -/
def listContains (n : List Char) : List Char → Bool
  | [] => n.isEmpty
  | c :: t => n.isPrefixOf (c :: t) || listContains n t

/-- Python `needle in hay` substring containment on `String`. -/
def strContains (hay needle : String) : Bool :=
  listContains needle.data hay.data

/-- `re.search`: the start-anchored matcher `p` succeeds at some position. -/
def anySuffix (p : List Char → Bool) : List Char → Bool
  | [] => p []
  | c :: t => p (c :: t) || anySuffix p t

/-- A character is cased (ASCII fragment), for `isupper`/`istitle`. -/
def isCased (c : Char) : Bool :=
  c.isUpper || c.isLower

/-- Python `str.isupper()`: at least one cased character and no cased
character is lowercase (ASCII fragment). -/
def pyIsUpper (l : List Char) : Bool :=
  l.any isCased && l.all (fun c => !(isCased c) || c.isUpper)

/-- Helper for `pyIsTitle`: walk tracking whether the previous character was
cased; an uppercase character may only follow an uncased one and a lowercase
character may only follow a cased one. -/
def pyIsTitleAux : Bool → List Char → Bool
  | _, [] => true
  | prevCased, c :: t =>
    if isCased c then
      (if prevCased then c.isLower else c.isUpper) && pyIsTitleAux true t
    else
      pyIsTitleAux false t

/-- Python `str.istitle()` (ASCII fragment). -/
def pyIsTitle (l : List Char) : Bool :=
  l.any isCased && pyIsTitleAux false l

/-- Python `str.isdigit()` (ASCII fragment). -/
def pyIsDigit (l : List Char) : Bool :=
  !l.isEmpty && l.all Char.isDigit

/-- Python `str.count(ch)` for a single character. -/
def pyCountChar (s : String) (ch : Char) : Nat :=
  s.data.count ch

/-! ### Hand-compiled matchers for the `PATTERNS` table in `utils.py`

`re.match` is anchored at the start of the string; `$` matches at the very
end or just before one final newline. -/

/-- Strip one final newline for `$`-anchored full matches. -/
def stripFinalNl (l : List Char) : List Char :=
  if l.getLast? = some '\n' then l.dropLast else l

/-- Characters removed by the trailing-punctuation sub in
`clean_heading_text`: the class `[.\-_]`. -/
def isTrailPunct (c : Char) : Bool :=
  c = '.' || c = '-' || c = '_'

/-- `\s+\d` after at least one whitespace character: more whitespace or the
required first digit. -/
def wsPlusDigitsAux : List Char → Bool
  | [] => false
  | c :: t => c.isDigit || (isPyWs c && wsPlusDigitsAux t)

/-- Matcher for a `\s+\d+` prefix (trailing context after the digit is
unconstrained). -/
def wsPlusDigits : List Char → Bool
  | [] => false
  | c :: t => isPyWs c && wsPlusDigitsAux t

/-- Matcher for a `\s*\d+` prefix. -/
def wsStarDigits : List Char → Bool
  | [] => false
  | c :: t => c.isDigit || (isPyWs c && wsStarDigits t)

/-- Matcher for a `\w*\s*\d+` prefix (used by the `fig` noise alternative);
each disjunct corresponds to one way the backtracking engine can extend the
match. -/
def wordWsDigits : List Char → Bool
  | [] => false
  | c :: t => c.isDigit || (isWordChar c && wordWsDigits t) || (isPyWs c && wsStarDigits t)

/-- Truthiness of `PATTERNS['noise'].match` on an already lowercased string
(the pattern is compiled with `re.IGNORECASE`):
`^\d+$|^page\s+\d+|^fig\w*\s*\d+|^table\s*\d+|^www\.|^https?://|^\[.*\]$|^copyright|^all rights reserved|^©|^\s*$`.
In `^\[.*\]$` the dot does not match a newline. -/
def noiseMatch (l : List Char) : Bool :=
  let eff := stripFinalNl l
  (!eff.isEmpty && eff.all Char.isDigit) ||
  ("page".data.isPrefixOf l && wsPlusDigits (l.drop 4)) ||
  ("fig".data.isPrefixOf l && wordWsDigits (l.drop 3)) ||
  ("table".data.isPrefixOf l && wsStarDigits (l.drop 5)) ||
  "www.".data.isPrefixOf l ||
  "http://".data.isPrefixOf l ||
  "https://".data.isPrefixOf l ||
  (eff.head? = some '[' && eff.getLast? = some ']' && 2 ≤ eff.length &&
    !(eff.drop 1).dropLast.contains '\n') ||
  "copyright".data.isPrefixOf l ||
  "all rights reserved".data.isPrefixOf l ||
  "©".data.isPrefixOf l ||
  l.all isPyWs

/-- Truthiness of `PATTERNS['numbered'].match`, the pattern
`^(\d+\.?\d*\s*)`: everything after `\d+` is nullable, so a match exists
exactly when the first character is a digit. -/
def numberedMatch : List Char → Bool
  | [] => false
  | c :: _ => c.isDigit

/-- Roman-numeral letter class `[ivxlcdm]` (on lowercased input). -/
def isRomanChar (c : Char) : Bool :=
  c = 'i' || c = 'v' || c = 'x' || c = 'l' || c = 'c' || c = 'd' || c = 'm'

/-- After at least one roman letter of `^[ivxlcdm]+\.?\s+`: continue the run,
or take the optional dot followed by whitespace, or hit the required
whitespace directly. -/
def romanAfter : List Char → Bool
  | [] => false
  | c :: t =>
    (isRomanChar c && romanAfter t) ||
    (c = '.' && (t.head?.elim false isPyWs)) ||
    isPyWs c

/-- Truthiness of `PATTERNS['roman'].match` (pattern `^[ivxlcdm]+\.?\s+`,
`re.IGNORECASE`), on lowercased input. -/
def romanMatch : List Char → Bool
  | [] => false
  | c :: t => isRomanChar c && romanAfter t

/-- Consume exactly `n` digits (`\d{n}`). -/
def eatDigits : Nat → List Char → Option (List Char)
  | 0, l => some l
  | _ + 1, [] => none
  | n + 1, c :: t => if c.isDigit then eatDigits n t else none

/-- Consume one expected literal character. -/
def eatChar (c : Char) : List Char → Option (List Char)
  | [] => none
  | d :: t => if d = c then some t else none

/-- First phone alternative `\(\d{3}\)\s*\d{3}-\d{4}` anchored at the current
position. -/
def phoneAlt1 (l : List Char) : Bool :=
  ((eatChar '(' l).bind (eatDigits 3) |>.bind (eatChar ')') |>.map
      (List.dropWhile isPyWs) |>.bind (eatDigits 3) |>.bind (eatChar '-')
    |>.bind (eatDigits 4)).isSome

/-- Second phone alternative `\d{3}-\d{3}-\d{4}` anchored at the current
position. -/
def phoneAlt2 (l : List Char) : Bool :=
  ((eatDigits 3 l).bind (eatChar '-') |>.bind (eatDigits 3) |>.bind
      (eatChar '-') |>.bind (eatDigits 4)).isSome

/-- Truthiness of `PATTERNS['phone'].search`,
pattern `\(\d{3}\)\s*\d{3}-\d{4}|\d{3}-\d{3}-\d{4}|\d{10}`. -/
def phoneSearch (l : List Char) : Bool :=
  anySuffix (fun s => phoneAlt1 s || phoneAlt2 s || (eatDigits 10 s).isSome) l

/-- `\b` immediately after a word character: next character absent or not a
word character. -/
def wordBoundAfter : List Char → Bool
  | [] => true
  | c :: _ => !(isWordChar c)

/-- Truthiness of `PATTERNS['url'].search` on lowercased input
(`re.IGNORECASE`), pattern `www\.|https?://|\.com\b|\.org\b|\.net\b`. -/
def urlSearch (l : List Char) : Bool :=
  anySuffix (fun s =>
    "www.".data.isPrefixOf s ||
    "http://".data.isPrefixOf s ||
    "https://".data.isPrefixOf s ||
    (".com".data.isPrefixOf s && wordBoundAfter (s.drop 4)) ||
    (".org".data.isPrefixOf s && wordBoundAfter (s.drop 4)) ||
    (".net".data.isPrefixOf s && wordBoundAfter (s.drop 4))) l

/-- Local-part class `[A-Za-z0-9._%+-]` of the email pattern. -/
def isEmailLocalChar (c : Char) : Bool :=
  c.isAlpha || c.isDigit || c = '.' || c = '_' || c = '%' || c = '+' || c = '-'

/-- Domain class `[A-Za-z0-9.-]` of the email pattern. -/
def isEmailDomChar (c : Char) : Bool :=
  c.isAlpha || c.isDigit || c = '.' || c = '-'

/-- TLD class `[A-Z|a-z]` of the email pattern (the literal `|` belongs to
the character class). -/
def isEmailTldChar (c : Char) : Bool :=
  c.isAlpha || c = '|'

/-- Trailing `\b` after at least two TLD characters: succeed on a non-word
character or the end, or extend the TLD run. -/
def emailTldTail : List Char → Bool
  | [] => true
  | c :: t => !(isWordChar c) || (isEmailTldChar c && emailTldTail t)

/-- `[A-Z|a-z]{2,}\b` anchored at the current position. -/
def emailTld : List Char → Bool
  | c1 :: c2 :: t => isEmailTldChar c1 && isEmailTldChar c2 && emailTldTail t
  | _ => false

/-- After at least one domain character: take the dot into the TLD, or extend
the domain run (the dot is itself a domain character, hence the
disjunction). -/
def emailDomLoop : List Char → Bool
  | [] => false
  | c :: t => (c = '.' && emailTld t) || (isEmailDomChar c && emailDomLoop t)

/-- `[A-Za-z0-9.-]+\.[A-Z|a-z]{2,}\b` anchored at the current position. -/
def emailDom : List Char → Bool
  | [] => false
  | c :: t => isEmailDomChar c && emailDomLoop t

/-- After at least one local character: take the `@`, or extend the local
run. -/
def emailLocalLoop : List Char → Bool
  | [] => false
  | c :: t => (c = '@' && emailDom t) || (isEmailLocalChar c && emailLocalLoop t)

/-- `\b` between an optional previous character and the current one: word
status changes (positions outside the string count as non-word). -/
def emailBoundary (prev : Option Char) (c : Char) : Bool :=
  match prev with
  | none => isWordChar c
  | some q => isWordChar q != isWordChar c

/-- Scan for `PATTERNS['email']`,
`\b[A-Za-z0-9._%+-]+@[A-Za-z0-9.-]+\.[A-Z|a-z]{2,}\b`, tracking the previous
character for the leading boundary. -/
def emailScan (prev : Option Char) : List Char → Bool
  | [] => false
  | c :: t =>
    (emailBoundary prev c && isEmailLocalChar c && emailLocalLoop t) ||
    emailScan (some c) t

/-- Truthiness of `PATTERNS['email'].search`. -/
def emailSearch (l : List Char) : Bool :=
  emailScan none l

/-- Road-keyword alternation of the address pattern
`(?:street|st|avenue|ave|road|rd|drive|dr|lane|ln|way|blvd|boulevard)`,
anchored at the current position (no trailing boundary in the source
pattern). -/
def roadKw (l : List Char) : Bool :=
  ["street", "st", "avenue", "ave", "road", "rd", "drive", "dr", "lane",
    "ln", "way", "blvd", "boulevard"].any (fun k => k.data.isPrefixOf l)

/-- `[\w\s]+(?:street|…)` anchored at the current position: consume at least
one word-or-space character, then either the keyword or more body. -/
def addrBody : List Char → Bool
  | [] => false
  | c :: t => (isWordChar c || isPyWs c) && (roadKw t || addrBody t)

/-- After at least one digit of `\d+\s+[\w\s]+(?:street|…)`: extend the digit
run or take the required whitespace (whitespace is also a `[\w\s]` body
character, so one leading whitespace character suffices before the body). -/
def addrDigLoop : List Char → Bool
  | [] => false
  | c :: t => (c.isDigit && addrDigLoop t) || (isPyWs c && addrBody t)

/-- Truthiness of `PATTERNS['address'].search` on lowercased input
(`re.IGNORECASE`). -/
def addrSearch (l : List Char) : Bool :=
  anySuffix (fun s =>
    match s with
    | [] => false
    | c :: t => c.isDigit && addrDigLoop t) l

/-! ### `clean_heading_text` (utils.py) -/

/-- Worker for `re.sub(r'\s+', ' ', text)`: the flag records whether the
scan is inside a whitespace run whose single replacement space has already
been emitted. -/
def collapseWsAux : Bool → List Char → List Char
  | _, [] => []
  | inRun, c :: t =>
    if isPyWs c then
      if inRun then collapseWsAux true t else ' ' :: collapseWsAux true t
    else c :: collapseWsAux false t

/-- `re.sub(r'\s+', ' ', text)`: every maximal whitespace run becomes one
space. -/
def collapseWs (l : List Char) : List Char :=
  collapseWsAux false l

/-- Drop the maximal trailing run of characters satisfying `p`. -/
def dropTrailRun (p : Char → Bool) (l : List Char) : List Char :=
  (l.reverse.dropWhile p).reverse

/-- `re.sub(r'[.\-_]+$', '', text)`: remove a trailing run of `.`/`-`/`_`;
`$` also matches just before one final newline. -/
def subPunctEnd (l : List Char) : List Char :=
  if l.getLast? = some '\n' then dropTrailRun isTrailPunct l.dropLast ++ ['\n']
  else dropTrailRun isTrailPunct l

/-- `re.sub(r'\s+\d+$', '', core)` ignoring the final-newline case: remove a
trailing digit run (at least one digit) preceded by a whitespace run (at
least one character). -/
def subNumCore (l : List Char) : List Char :=
  let rev := l.reverse
  let ds := rev.takeWhile Char.isDigit
  let rest := rev.dropWhile Char.isDigit
  let ws := rest.takeWhile isPyWs
  if ds.isEmpty || ws.isEmpty then l else (rest.dropWhile isPyWs).reverse

/-- `re.sub(r'\s+\d+$', '', text)`; `$` also matches just before one final
newline. -/
def subNumEnd (l : List Char) : List Char :=
  if l.getLast? = some '\n' then subNumCore l.dropLast ++ ['\n']
  else subNumCore l

/-- `clean_heading_text` (utils.py): collapse whitespace on the stripped
text, strip a trailing punctuation run, strip a trailing page-number suffix,
strip again. -/
def clean_heading_text (s : String) : String :=
  if s = "" then ""
  else String.mk (pyStrip (subNumEnd (subPunctEnd (collapseWs (pyStrip s.data)))))

/-! ### Cached text predicates (utils.py) -/

/-- `is_heading_case` (utils.py): fully uppercase with length > 2, or title
case, or a numbered prefix, or a roman-numeral prefix. -/
def is_heading_case (s : String) : Bool :=
  if s = "" then false
  else
    (pyIsUpper s.data && 2 < s.data.length) ||
    pyIsTitle s.data ||
    numberedMatch s.data ||
    romanMatch (pyLower s.data)

/-- `is_noise_text` (utils.py): empty, noise-pattern match on the stripped
text, length < 2, purely numeric, or a URL/email hit. The noise and URL
patterns carry `re.IGNORECASE`, so they are matched on the lowercased
text. -/
def is_noise_text (s : String) : Bool :=
  if s = "" then true
  else
    let tc := pyStrip s.data
    noiseMatch (pyLower tc) ||
    tc.length < 2 ||
    pyIsDigit tc ||
    urlSearch (pyLower tc) ||
    emailSearch tc

/-- `is_contact_info` (utils.py): phone, URL, email or postal-address
pattern. The URL search runs on `text.lower()` and the address pattern
carries `re.IGNORECASE`; phone and email are case-insensitive anyway. -/
def is_contact_info (s : String) : Bool :=
  phoneSearch s.data ||
  urlSearch (pyLower s.data) ||
  emailSearch s.data ||
  addrSearch (pyLower s.data)

/-! ### Data model (interfaces of the parsing layer, §6 of the design) -/

/-- One text span: raw text, font name, style bit-flags and font size. -/
structure Span where
  text : String
  font : String
  flags : Int
  size : ℚ
deriving DecidableEq, Repr

/-- One line: spans plus the line bounding box. -/
structure Line where
  spans : List Span
  bbox : List ℚ
deriving DecidableEq, Repr

/-- One block: optional lines (image blocks carry no `"lines"` key) plus the
block bounding box. -/
structure Block where
  lines : Option (List Line)
  bbox : List ℚ
deriving DecidableEq, Repr

/-- One page: plain text (`page.get_text()`), geometry and blocks
(`page.get_text("dict")["blocks"]`). -/
structure Page where
  text : String
  width : ℚ
  height : ℚ
  blocks : List Block
deriving DecidableEq, Repr

/-- A parsed document: optional metadata title, native outline
(`doc.get_toc()`, already `[]` when absent or failing) and pages. -/
structure Doc where
  metaTitle : Option String
  toc : List (Int × String × Int)
  pages : List Page
deriving DecidableEq, Repr

/-- A heading candidate of the outline. The `order` key is never populated
on the main extraction path (the assignment is commented out in
`extract_page_headings`), hence the `Option`. -/
structure Heading where
  level : String
  text : String
  page : Int
  order : Option Int := none
deriving DecidableEq, Repr

/-- Document statistics (`calculate_text_stats`). `std_font_size` is
computed by the source but read by nothing downstream; it is omitted here
because it is the one irrational-valued field. -/
structure Stats where
  avg_font_size : ℚ
  max_font_size : ℚ
  min_font_size : ℚ
  avg_line_height : ℚ
  total_text_blocks : Nat
deriving DecidableEq, Repr

/-- Result metadata. `processing_time` (wall clock) is omitted. -/
structure Metadata where
  extraction_method : Option String := none
  document_type : Option String := none
  total_pages : Option Nat := none
  total_headings : Option Nat := none
  error : Option String := none
deriving DecidableEq, Repr

/-- The terminal artifact of `extract_outline`. -/
structure OutlineResult where
  title : String
  outline : List Heading
  metadata : Metadata
deriving DecidableEq, Repr

/-- Intermediate promotional candidate (`text_candidates` in
`extract_promotional_headings`). -/
structure PromoCandidate where
  text : String
  importance : ℚ
  page : Int
deriving DecidableEq, Repr

/-! ### Geometry and statistics (utils.py) -/

/-- `is_bold` (utils.py): font-name indicator or flag bit 16. -/
def is_bold (span : Span) : Bool :=
  let fontName := pyLowerS span.font
  (["bold", "black", "heavy", "semibold", "demi"].any
    (fun ind => strContains fontName ind)) ||
  Int.land span.flags 16 ≠ 0

/-- `is_italic` (utils.py): font-name indicator or flag bit 2. -/
def is_italic (span : Span) : Bool :=
  let fontName := pyLowerS span.font
  (["italic", "oblique"].any (fun ind => strContains fontName ind)) ||
  Int.land span.flags 2 ≠ 0

/-- `is_centered` (utils.py). A division by a zero page width raises in the
source; widths are positive throughout, and `ℚ` division by zero is never
exercised by any theorem below. -/
def is_centered (block : Block) (page_width : ℚ) (tolerance : ℚ) : Bool :=
  let bbox := block.bbox
  if bbox.isEmpty || bbox.length < 4 then false
  else
    let blockCenter := (bbox.getD 0 0 + bbox.getD 2 0) / 2
    let pageCenter := page_width / 2
    |blockCenter - pageCenter| / page_width < tolerance

/-- `is_top_of_page` (utils.py). -/
def is_top_of_page (block : Block) (page_height : ℚ) (max_pct : ℚ) : Bool :=
  let bbox := block.bbox
  if bbox.isEmpty || bbox.length < 4 then false
  else bbox.getD 1 0 < page_height * max_pct

/-- `is_bottom_of_page` (utils.py). -/
def is_bottom_of_page (block : Block) (page_height : ℚ) (min_pct : ℚ) : Bool :=
  let bbox := block.bbox
  if bbox.isEmpty || bbox.length < 4 then false
  else page_height * min_pct < bbox.getD 1 0

/-- `extract_page_position` (utils.py): relative vertical position. -/
def extract_page_position (block : Block) (page_height : ℚ) : ℚ :=
  let bbox := block.bbox
  if bbox.isEmpty || bbox.length < 4 then 0
  else bbox.getD 1 0 / max page_height 1

/-- Font sizes collected by `calculate_text_stats`: every span with
non-blank text inside a block that has lines. -/
def statsFontSizes (blocks : List Block) : List ℚ :=
  blocks.flatMap (fun b =>
    (b.lines.getD []).flatMap (fun ln =>
      (ln.spans.filter (fun sp => !(pyStrip sp.text.data).isEmpty)).map (·.size)))

/-- Line heights collected by `calculate_text_stats`. -/
def statsLineHeights (blocks : List Block) : List ℚ :=
  blocks.flatMap (fun b =>
    (b.lines.getD []).filterMap (fun ln =>
      if 4 ≤ ln.bbox.length then some (ln.bbox.getD 3 0 - ln.bbox.getD 1 0)
      else none))

/-- `calculate_text_stats` (utils.py); means/extrema over the sampled spans,
with the documented defaults when no span exists. -/
def calculate_text_stats (blocks : List Block) : Stats :=
  let lineHeights := statsLineHeights blocks
  match statsFontSizes blocks with
  | [] =>
    { avg_font_size := 12, max_font_size := 12, min_font_size := 12,
      avg_line_height := 15, total_text_blocks := 0 }
  | f :: fs =>
    let lh := if lineHeights.isEmpty then [15] else lineHeights
    { avg_font_size := (f :: fs).sum / (fs.length + 1 : ℚ),
      max_font_size := fs.foldl max f,
      min_font_size := fs.foldl min f,
      avg_line_height := lh.sum / (lh.length : ℚ),
      total_text_blocks := fs.length + 1 }

/-- `detect_outline_from_toc` (utils.py). TOC items are (level, title, page)
triples — the `len(item) >= 3` guard always holds — and a failing or absent
`get_toc` is already represented by the empty list. -/
def detect_outline_from_toc (toc : List (Int × String × Int)) : List Heading :=
  toc.filterMap (fun item =>
    let level := item.1
    let title := item.2.1
    let page := item.2.2
    if 1 ≤ level ∧ level ≤ 3 then
      let cleanedTitle := clean_heading_text title
      if cleanedTitle ≠ "" ∧ 1 < cleanedTitle.length then
        some { level := "H" ++ toString level, text := cleanedTitle,
               page := max 1 page }
      else none
    else none)

/-! ### Hierarchy repair and deduplication (utils.py) -/

/-- Sort key of `validate_heading_hierarchy`:
`(x['page'], x.get('order', 0))`. -/
def hierKey (h : Heading) : Int × Int :=
  (h.page, h.order.getD 0)

/-- Tuple comparison on the hierarchy sort key. -/
def hierKeyLe (a b : Heading) : Prop :=
  (hierKey a).1 < (hierKey b).1 ∨
    ((hierKey a).1 = (hierKey b).1 ∧ (hierKey a).2 ≤ (hierKey b).2)

instance : DecidableRel hierKeyLe := fun a b => by
  unfold hierKeyLe; infer_instance

/-- `int(heading['level'][1])`: the digit value of the character at index 1
of the level string. -/
def levelNum (s : String) : Nat :=
  (s.data.getD 1 '0').toNat - ('0').toNat

/-- The walk of `validate_heading_hierarchy`: clamp any level jumping by
more than one above `last_level`. -/
def repairWalk : Nat → List Heading → List Heading
  | _, [] => []
  | lastLevel, h :: t =>
    let currentLevel := levelNum h.level
    if lastLevel + 1 < currentLevel then
      { h with level := "H" ++ toString (lastLevel + 1) } ::
        repairWalk (lastLevel + 1) t
    else
      h :: repairWalk currentLevel t

/-- `validate_heading_hierarchy` (utils.py): stable sort by
(page, order-defaulting-to-0), then the clamping walk with `last_level`
initialised to 0. -/
def validate_heading_hierarchy (outline : List Heading) : List Heading :=
  if outline.isEmpty then outline
  else repairWalk 0 (List.insertionSort hierKeyLe outline)

/-- Worker of `merge_similar_headings`: the `seen_text` set as a list used
only through membership. -/
def mergeAux (seen : List String) : List Heading → List Heading
  | [] => []
  | h :: t =>
    let text := pyStripS (pyLowerS h.text)
    if text ∈ seen then mergeAux seen t
    else h :: mergeAux (text :: seen) t

/-- `merge_similar_headings` (utils.py). The `similarity_threshold`
parameter (default 0.8 in the source) is accepted and never read: the body
performs only the exact case-folded duplicate check. -/
def merge_similar_headings (headings : List Heading)
    (similarity_threshold : ℚ) : List Heading :=
  if headings.isEmpty then headings else mergeAux [] headings

/-! ### Document type detection (document_types.py) -/

/-- `DocumentTypeDetector.promotional_indicators`. -/
def promotional_indicators : List String :=
  ["you're invited", "hope to see you", "party", "celebration",
   "join us", "rsvp", "required", "please visit", "event",
   "special", "don't miss", "save the date", "come join"]

/-- `DocumentTypeDetector.formal_indicators`. -/
def formal_indicators : List String :=
  ["introduction", "conclusion", "methodology", "abstract",
   "chapter", "section", "appendix", "references", "table of contents",
   "executive summary", "background", "literature review"]

/-- `DocumentTypeDetector.academic_indicators`. -/
def academic_indicators : List String :=
  ["abstract", "thesis", "dissertation", "research", "hypothesis",
   "methodology", "results", "discussion", "conclusion", "bibliography"]

/-- `DocumentTypeDetector.detect_document_type` (document_types.py):
indicator counts plus the phone/url/address contact-pattern count, first
matching rule wins. -/
def detect_document_type (text_sample : String) : String :=
  let textLower := pyLowerS text_sample
  let promotionalCount :=
    (promotional_indicators.filter (fun i => strContains textLower i)).length
  let formalCount :=
    (formal_indicators.filter (fun i => strContains textLower i)).length
  let academicCount :=
    (academic_indicators.filter (fun i => strContains textLower i)).length
  let contactCount :=
    ([phoneSearch textLower.data, urlSearch textLower.data,
      addrSearch textLower.data].filter (fun b => b)).length
  if 2 ≤ promotionalCount ∨ 2 ≤ contactCount then "promotional"
  else if 2 ≤ academicCount then "academic"
  else if 2 ≤ formalCount then "formal"
  else "general"

/-- `PromotionalHandler.high_priority_phrases`. -/
def high_priority_phrases : List String :=
  ["you're invited", "hope to see you", "party", "celebration",
   "join us", "rsvp", "required", "please visit", "come join",
   "special event", "don't miss", "save the date"]

/-- The visual-emphasis score accumulated by
`PromotionalHandler.is_promotional_heading`; note the `'!' in text` summand
is worth 1 whenever at least one exclamation mark occurs, independent of the
count. -/
def promoEmphasisScore (text : String) (font_size : ℚ) (is_bold : Bool)
    (is_centered : Bool) (avg_font_size : ℚ) : Nat :=
  (if avg_font_size + 2 < font_size then 3
   else if avg_font_size + 1 < font_size then 2 else 0) +
  (if is_bold then 2 else 0) +
  (if is_centered then 2 else 0) +
  (if pyIsUpper text.data ∧ 4 < text.length then 2
   else if pyIsTitle text.data then 1 else 0) +
  (if strContains text "!" then 1 else 0)

/-- `PromotionalHandler.is_promotional_heading` (document_types.py). -/
def is_promotional_heading (text : String) (font_size : ℚ) (is_bold : Bool)
    (is_centered : Bool) (avg_font_size : ℚ) : Bool :=
  let textLower := pyStripS (pyLowerS text)
  if text.length < 3 then false
  else if is_contact_info text then
    is_bold && avg_font_size + 2 < font_size
  else if high_priority_phrases.any (fun p => strContains textLower p) then
    true
  else
    3 ≤ promoEmphasisScore text font_size is_bold is_centered avg_font_size

/-- `PromotionalHandler.calculate_importance_score` (document_types.py). -/
def calculate_importance_score (text : String) (font_size : ℚ)
    (is_bold : Bool) (is_centered : Bool) (avg_font_size : ℚ)
    (page_position : ℚ) : ℚ :=
  let textLower := pyLowerS text
  let phraseBonus : ℚ :=
    10 * ((high_priority_phrases.filter
      (fun p => strContains textLower p)).length : ℚ)
  let sizeRatio := font_size / max avg_font_size 1
  phraseBonus + sizeRatio * 3 +
  (if is_bold then 4 else 0) +
  (if is_centered then 3 else 0) +
  (if pyIsUpper text.data then 2 else 0) +
  (pyCountChar text '!' : ℚ) * 1.5 +
  (if page_position < 0.3 then 2 else if 0.7 < page_position then 1 else 0) +
  (if 5 ≤ text.length ∧ text.length ≤ 50 then 1
   else if 100 < text.length then -2 else 0)

/-! ### FormalHandler (document_types.py) -/

/-- After at least one digit of `^\d+\.?\s+`: extend the run, or the
optional dot followed by whitespace, or the required whitespace. -/
def digitsDotWsAfter : List Char → Bool
  | [] => false
  | c :: t =>
    (c.isDigit && digitsDotWsAfter t) ||
    (c = '.' && (t.head?.elim false isPyWs)) ||
    isPyWs c

/-- Truthiness of `^\d+\.?\s+` (`FormalHandler.section_patterns[0]`). -/
def digitsDotWs : List Char → Bool
  | [] => false
  | c :: t => c.isDigit && digitsDotWsAfter t

/-- Truthiness of `^(chapter|section|part)\s+\d+` (`re.IGNORECASE`), on
lowercased input (`FormalHandler.section_patterns[2]`). -/
def chapterSectionPartMatch (l : List Char) : Bool :=
  ("chapter".data.isPrefixOf l && wsPlusDigits (l.drop 7)) ||
  ("section".data.isPrefixOf l && wsPlusDigits (l.drop 7)) ||
  ("part".data.isPrefixOf l && wsPlusDigits (l.drop 4))

/-- `FormalHandler.is_formal_heading` (document_types.py). -/
def is_formal_heading (text : String) (font_size : ℚ) (is_bold : Bool)
    (is_centered : Bool) (is_top : Bool) (avg_font_size : ℚ) : Bool :=
  (avg_font_size + 2 ≤ font_size) ||
  (is_bold && (pyIsUpper text.data || pyIsTitle text.data)) ||
  ((is_centered || is_top) && (pyIsUpper text.data || pyIsTitle text.data)) ||
  digitsDotWs text.data ||
  romanMatch (pyLower text.data) ||
  chapterSectionPartMatch (pyLower text.data)

/-- `FormalHandler.detect_heading_level` (document_types.py). -/
def formal_detect_heading_level (text : String) (font_size : ℚ)
    (is_bold : Bool) (is_centered : Bool) (is_top : Bool)
    (avg_font_size : ℚ) : Option String :=
  if !is_formal_heading text font_size is_bold is_centered is_top avg_font_size
  then none
  else if avg_font_size + 4 ≤ font_size then some "H1"
  else if is_centered && is_bold && avg_font_size + 2 ≤ font_size then some "H1"
  else if avg_font_size + 2 ≤ font_size then some "H2"
  else if is_bold && avg_font_size + 1 ≤ font_size then some "H2"
  else some "H3"

/-! ### HeuristicDetector (detector.py) -/

/-- `\.?` before a continuation matcher: skip nothing or one dot. -/
def optDotThen (p : List Char → Bool) (l : List Char) : Bool :=
  p l || (l.head? = some '.' && p l.tail)

/-- `\s+C` for a character class `C` (at least one whitespace character then
at least one class character): continuation after the first whitespace. -/
def wsPlusClassAux (p : Char → Bool) : List Char → Bool
  | [] => false
  | c :: t => p c || (isPyWs c && wsPlusClassAux p t)

/-- Matcher for a `\s+C+` prefix for a character class `C`. -/
def wsPlusClass (p : Char → Bool) : List Char → Bool
  | [] => false
  | c :: t => isPyWs c && wsPlusClassAux p t

/-- Truthiness of `special_patterns['chapter_heading']`,
`^(chapter|ch\.?)\s+\d+` with `re.IGNORECASE`, on lowercased input. -/
def chapterHeadingMatch (l : List Char) : Bool :=
  ("chapter".data.isPrefixOf l && wsPlusDigits (l.drop 7)) ||
  ("ch".data.isPrefixOf l && optDotThen wsPlusDigits (l.drop 2))

/-- Truthiness of `special_patterns['section_heading']`,
`^(section|sec\.?)\s+\d+` with `re.IGNORECASE`, on lowercased input. -/
def sectionHeadingMatch (l : List Char) : Bool :=
  ("section".data.isPrefixOf l && wsPlusDigits (l.drop 7)) ||
  ("sec".data.isPrefixOf l && optDotThen wsPlusDigits (l.drop 3))

/-- Truthiness of `special_patterns['part_heading']`,
`^(part|pt\.?)\s+[ivxlcdm\d]+` with `re.IGNORECASE`, on lowercased input. -/
def partHeadingMatch (l : List Char) : Bool :=
  ("part".data.isPrefixOf l &&
    wsPlusClass (fun c => isRomanChar c || c.isDigit) (l.drop 4)) ||
  ("pt".data.isPrefixOf l &&
    optDotThen (wsPlusClass (fun c => isRomanChar c || c.isDigit)) (l.drop 2))

/-- Truthiness of `special_patterns['appendix']`,
`^(appendix|app\.?)\s*[a-z\d]*` with `re.IGNORECASE`, on lowercased input:
everything after the alternation is nullable, and an `appendix` prefix
implies an `app` prefix, so only the alternation survives. -/
def appendixHeadingMatch (l : List Char) : Bool :=
  "appendix".data.isPrefixOf l || "app".data.isPrefixOf l

/-- Truthiness of `special_patterns['figure_table']`,
`^(figure|fig\.?|table|tbl\.?)\s+\d+` with `re.IGNORECASE`, on lowercased
input. -/
def figureTableMatch (l : List Char) : Bool :=
  ("figure".data.isPrefixOf l && wsPlusDigits (l.drop 6)) ||
  ("fig".data.isPrefixOf l && optDotThen wsPlusDigits (l.drop 3)) ||
  ("table".data.isPrefixOf l && wsPlusDigits (l.drop 5)) ||
  ("tbl".data.isPrefixOf l && optDotThen wsPlusDigits (l.drop 3))

/-- `HeuristicDetector._is_general_heading` (detector.py). -/
def is_general_heading (text : String) (font_size : ℚ) (is_bold : Bool)
    (is_centered : Bool) (is_top : Bool) (avg_font_size : ℚ) : Bool :=
  (avg_font_size + 3 ≤ font_size) ||
  (is_bold && avg_font_size + 1.5 ≤ font_size) ||
  ((is_centered || is_top) && is_heading_case text) ||
  chapterHeadingMatch (pyLower text.data) ||
  sectionHeadingMatch (pyLower text.data) ||
  partHeadingMatch (pyLower text.data) ||
  appendixHeadingMatch (pyLower text.data) ||
  figureTableMatch (pyLower text.data) ||
  ((numberedMatch text.data || romanMatch (pyLower text.data)) &&
    5 < text.length)

/-- `HeuristicDetector.is_likely_heading` (detector.py): common pre-filters,
then the document-type specific rule set. -/
def is_likely_heading (text : String) (font_size : ℚ) (is_bold : Bool)
    (avg_font_size : ℚ) (is_centered : Bool) (is_top : Bool)
    (doc_type : String) : Bool :=
  if text = "" ∨ (pyStripS text).length < 2 then false
  else if is_noise_text text then false
  else if figureTableMatch (pyLower text.data) && !is_bold then false
  else if doc_type = "promotional" then
    is_promotional_heading text font_size is_bold is_centered avg_font_size
  else if doc_type = "formal" then
    is_formal_heading text font_size is_bold is_centered is_top avg_font_size
  else
    is_general_heading text font_size is_bold is_centered is_top avg_font_size

/-- H1 phrase list of `HeuristicDetector._detect_promotional_level`. -/
def h1_phrases : List String :=
  ["you're invited", "hope to see you", "party", "celebration"]

/-- `HeuristicDetector._detect_promotional_level` (detector.py). -/
def detect_promotional_level (text : String) (font_size : ℚ)
    (is_bold : Bool) (is_centered : Bool) (avg_font_size : ℚ) : String :=
  let textLower := pyLowerS text
  if h1_phrases.any (fun p => strContains textLower p) then "H1"
  else if avg_font_size + 3 < font_size && is_bold && is_centered then "H1"
  else if avg_font_size + 4 < font_size then "H1"
  else if avg_font_size + 2 < font_size && (is_bold || is_centered) then "H2"
  else if pyIsUpper text.data && 4 < text.length && avg_font_size < font_size
  then "H2"
  else "H3"

/-- `HeuristicDetector._detect_general_level` (detector.py); the `is_top`
parameter exists in the source signature and is never read there either. -/
def detect_general_level (text : String) (font_size : ℚ) (is_bold : Bool)
    (is_centered : Bool) (is_top : Bool) (avg_font_size : ℚ) : String :=
  if avg_font_size + 4 ≤ font_size ∨
     chapterHeadingMatch (pyLower text.data) = true ∨
     partHeadingMatch (pyLower text.data) = true then "H1"
  else if is_centered && is_bold && avg_font_size + 2 ≤ font_size then "H1"
  else if avg_font_size + 2 ≤ font_size ∨
          sectionHeadingMatch (pyLower text.data) = true then "H2"
  else if is_bold && avg_font_size + 1 ≤ font_size then "H2"
  else "H3"

/-- `HeuristicDetector.detect_heading_level` (detector.py). -/
def detect_heading_level (text : String) (font_size : ℚ) (is_bold : Bool)
    (avg_font_size : ℚ) (is_centered : Bool) (is_top : Bool)
    (doc_type : String) : Option String :=
  if !is_likely_heading text font_size is_bold avg_font_size is_centered
      is_top doc_type then none
  else if doc_type = "promotional" then
    some (detect_promotional_level text font_size is_bold is_centered
      avg_font_size)
  else if doc_type = "formal" then
    formal_detect_heading_level text font_size is_bold is_centered is_top
      avg_font_size
  else
    some (detect_general_level text font_size is_bold is_centered is_top
      avg_font_size)

/-- The score of `HeuristicDetector._rank_promotional_headings`: +10 per
contained high-priority phrase, a level weight via
`{"H1": 8, "H2": 5, "H3": 2}.get(level, 0)`, −5 when the text exceeds 100
characters. -/
def promo_rank_score (heading : Heading) : Int :=
  let textLower := pyLowerS heading.text
  10 * ((high_priority_phrases.filter
    (fun p => strContains textLower p)).length : Int) +
  (if heading.level = "H1" then 8
   else if heading.level = "H2" then 5
   else if heading.level = "H3" then 2 else 0) +
  (if 100 < heading.text.length then -5 else 0)

/-- `HeuristicDetector._rank_promotional_headings`: stable sort, descending
rank score. -/
def rank_promotional_headings (headings : List Heading) : List Heading :=
  List.insertionSort
    (fun a b => promo_rank_score b ≤ promo_rank_score a) headings

/-- Sort key of `HeuristicDetector._rank_standard_headings`:
`(page, level_order.get(level, 4), order-defaulting-to-0)`. -/
def stdRankKey (h : Heading) : Int × Int × Int :=
  (h.page,
   (if h.level = "H1" then 1
    else if h.level = "H2" then 2
    else if h.level = "H3" then 3 else 4),
   h.order.getD 0)

/-- Lexicographic comparison of integer triples (Python tuple `≤`). -/
def tripleLe (a b : Int × Int × Int) : Prop :=
  a.1 < b.1 ∨
    (a.1 = b.1 ∧ (a.2.1 < b.2.1 ∨ (a.2.1 = b.2.1 ∧ a.2.2 ≤ b.2.2)))

instance (a b : Int × Int × Int) : Decidable (tripleLe a b) := by
  unfold tripleLe; infer_instance

/-- `HeuristicDetector._rank_standard_headings`: stable sort by the standard
key. -/
def rank_standard_headings (headings : List Heading) : List Heading :=
  List.insertionSort
    (fun a b => tripleLe (stdRankKey a) (stdRankKey b)) headings

/-- `HeuristicDetector.rank_headings_by_importance` (detector.py). -/
def rank_headings_by_importance (headings : List Heading)
    (doc_type : String) : List Heading :=
  if doc_type = "promotional" then rank_promotional_headings headings
  else rank_standard_headings headings

/-! ### Extractor (extractor.py) -/

/-- `calculate_title_score` (extractor.py). The enclosing `try` never fires
in the embedding: every step of the body is total (callers guarantee a
non-empty span list). -/
def calculate_title_score (text : String) (spans : List Span) (block : Block)
    (page_width page_height : ℚ) (stats : Stats) : ℚ :=
  let avgSize := (spans.map (·.size)).sum / (spans.length : ℚ)
  let sizeRatio := avgSize / max stats.avg_font_size 1
  min (sizeRatio * 2) 5 +
  (if 0.5 < ((spans.filter is_bold).length : ℚ) / (spans.length : ℚ)
   then 3 else 0) +
  (if is_centered block page_width 0.2 then 3 else 0) +
  (if is_top_of_page block page_height 0.3 then 2 else 0) +
  (if 10 ≤ text.length ∧ text.length ≤ 80 then 2
   else if 100 < text.length then -2 else 0) +
  (if is_heading_case text then 1 else 0) +
  (if is_contact_info text || is_noise_text text then -5 else 0)

/-- The `(score, text)` candidate list collected by `extract_title`'s
first-page fallback, in scan order. -/
def titleCandidates (page : Page) (stats : Stats) : List (ℚ × String) :=
  page.blocks.flatMap (fun block =>
    (block.lines.getD []).filterMap (fun line =>
      if line.spans.isEmpty then none
      else
        let text := clean_heading_text
          (pyStripS (String.join (line.spans.map (·.text))))
        if text = "" ∨ text.length < 5 ∨ is_noise_text text = true then none
        else
          some (calculate_title_score text line.spans block page.width
            page.height stats, text)))

/-- Python `<` on the `(score, text)` candidate tuples; the string
comparison is code-point lexicographic, taken on the character lists. -/
def pyPairLt (a b : ℚ × String) : Prop :=
  a.1 < b.1 ∨ (a.1 = b.1 ∧ a.2.data < b.2.data)

instance (a b : ℚ × String) : Decidable (pyPairLt a b) := by
  unfold pyPairLt; infer_instance

/-- The comparison realised by `title_candidates.sort(reverse=True)`:
stable, descending in the tuple order. -/
def titleDescRel (a b : ℚ × String) : Prop :=
  ¬pyPairLt a b

instance (a b : ℚ × String) : Decidable (titleDescRel a b) := by
  unfold titleDescRel; infer_instance

/-- First-page fallback of `extract_title` (strategy 2): score every line of
page one, sort descending, return the best text, or `""` with no
candidate. -/
def extract_title_fallback (doc : Doc) (stats? : Option Stats) : String :=
  match doc.pages with
  | [] => ""
  | page :: _ =>
    let stats :=
      match stats? with
      | some s => s
      | none => calculate_text_stats page.blocks
    match List.insertionSort titleDescRel (titleCandidates page stats) with
    | [] => ""
    | c :: _ => c.2

/-- `extract_title` (extractor.py): the metadata title when present,
non-blank and not a bare filename; otherwise the first-page fallback. -/
def extract_title (doc : Doc) (stats? : Option Stats) : String :=
  match doc.metaTitle with
  | none => extract_title_fallback doc stats?
  | some mt =>
    if mt = "" then extract_title_fallback doc stats?
    else
      let title := pyStripS mt
      if title ≠ "" ∧ !(pyLowerS title).endsWith ".pdf" then
        clean_heading_text title
      else extract_title_fallback doc stats?

/-- The promotional candidate list collected by
`extract_promotional_headings`, in scan order. -/
def promoCandidates (blocks : List Block) (page_num : Int)
    (page_width page_height : ℚ) (stats : Stats)
    (seen_headings : List String) : List PromoCandidate :=
  blocks.flatMap (fun block =>
    (block.lines.getD []).filterMap (fun line =>
      if line.spans.isEmpty then none
      else
        let text := clean_heading_text
          (pyStripS (String.join (line.spans.map (·.text))))
        if text = "" ∨ text.length < 2 ∨ text ∈ seen_headings then none
        else
          let avgSize := (line.spans.map (·.size)).sum /
            (line.spans.length : ℚ)
          let isBoldText := 0.5 <
            ((line.spans.filter is_bold).length : ℚ) /
              (line.spans.length : ℚ)
          let centered := is_centered block page_width 0.15
          let pagePosition := extract_page_position block page_height
          if is_promotional_heading text avgSize isBoldText centered
              stats.avg_font_size then
            some { text := text,
                   importance := calculate_importance_score text avgSize
                     isBoldText centered stats.avg_font_size pagePosition,
                   page := page_num }
          else none))

/-- The comparison realised by
`text_candidates.sort(key=..importance.., reverse=True)`: stable,
descending importance. -/
def promoImpRel (a b : PromoCandidate) : Prop :=
  b.importance ≤ a.importance

instance (a b : PromoCandidate) : Decidable (promoImpRel a b) := by
  unfold promoImpRel; infer_instance

/-- Level handed to the candidate at sorted rank `i`
(`extract_promotional_headings`). -/
def promoLevelOfRank (i : Nat) : String :=
  if i = 0 then "H1" else if i ≤ 2 then "H2" else "H3"

/-- `extract_promotional_headings` (extractor.py): collect qualifying
candidates, sort by importance descending, keep the top five, assign levels
by rank. -/
def extract_promotional_headings (blocks : List Block) (page_num : Int)
    (page_width page_height : ℚ) (stats : Stats)
    (seen_headings : List String) : List Heading :=
  let sorted := List.insertionSort promoImpRel
    (promoCandidates blocks page_num page_width page_height stats
      seen_headings)
  (sorted.take 5).enum.map (fun ic =>
    { level := promoLevelOfRank ic.1, text := ic.2.text, page := ic.2.page })

/-- `extract_page_headings` (extractor.py). The `order` loop variable of
the source is dead: the `"order"` field assignment is commented out. -/
def extract_page_headings (blocks : List Block) (page_num : Int)
    (page_width page_height : ℚ) (stats : Stats) (doc_type : String)
    (seen_headings : List String) : List Heading :=
  if doc_type = "promotional" then
    extract_promotional_headings blocks page_num page_width page_height
      stats seen_headings
  else
    blocks.flatMap (fun block =>
      (block.lines.getD []).filterMap (fun line =>
        if line.spans.isEmpty then none
        else
          let text := clean_heading_text
            (pyStripS (String.join (line.spans.map (·.text))))
          if text = "" ∨ text.length < 2 ∨ text ∈ seen_headings then none
          else
            let avgSize := (line.spans.map (·.size)).sum /
              (line.spans.length : ℚ)
            let isBoldText := 0.5 <
              ((line.spans.filter is_bold).length : ℚ) /
                (line.spans.length : ℚ)
            let centered := is_centered block page_width 0.15
            let top := is_top_of_page block page_height 0.25
            match detect_heading_level text avgSize isBoldText
                stats.avg_font_size centered top doc_type with
            | some level =>
              some { level := level, text := text, page := page_num }
            | none => none))

/-- `post_process_outline` (extractor.py): deduplicate, repair the
hierarchy, rank, truncate. The `detector` argument of the source is the
method receiver of `rank_headings_by_importance`; the enclosing `try` never
fires since every step is total. -/
def post_process_outline (outline : List Heading) (doc_type : String) :
    List Heading :=
  if outline.isEmpty then outline
  else
    let merged := merge_similar_headings outline 0.8
    let validated := validate_heading_hierarchy merged
    let ranked := rank_headings_by_importance validated doc_type
    if doc_type = "promotional" then ranked.take 5 else ranked.take 50

/-- `detect_document_type` of extractor.py: concatenate the lowercased text
of the first `min(3, pageCount)` pages and delegate to the detector (which
lowercases again — idempotent). -/
def doc_detect_document_type (doc : Doc) : String :=
  detect_document_type
    (String.join ((doc.pages.take 3).map (fun p => pyLowerS p.text)))

/-- Statistics sampling of `extract_outline`: all blocks of the first
`min(pageCount, 5)` pages. -/
def docStats (doc : Doc) : Stats :=
  calculate_text_stats ((doc.pages.take 5).flatMap (·.blocks))

/-- The per-page loop of `extract_outline`: accumulate page headings and
extend the `seen_headings` text set after each page (within a page the set
is the pre-page snapshot). -/
def collectHeadings (doc_type : String) (stats : Stats) :
    List Page → Int → List Heading → List String → List Heading
  | [], _, acc, _ => acc
  | page :: rest, pageNum, acc, seen =>
    let pageHeadings := extract_page_headings page.blocks pageNum page.width
      page.height stats doc_type seen
    collectHeadings doc_type stats rest (pageNum + 1) (acc ++ pageHeadings)
      (seen ++ pageHeadings.map (·.text))

/-- The successfully-opened body of `extract_outline`: native-outline
shortcut when the TOC yields at least three entries, otherwise the full
heuristic pipeline. -/
def processDoc (doc : Doc) : OutlineResult :=
  let tocOutline := detect_outline_from_toc doc.toc
  if 3 ≤ tocOutline.length then
    { title := extract_title doc none,
      outline := tocOutline,
      metadata := { extraction_method := some "toc",
                    total_pages := some doc.pages.length } }
  else
    let docType := doc_detect_document_type doc
    let stats := docStats doc
    let title := extract_title doc (some stats)
    let headings := collectHeadings docType stats doc.pages 1 [] []
    let outline := post_process_outline headings docType
    { title := title,
      outline := outline,
      metadata := { extraction_method := some "heuristic",
                    document_type := some docType,
                    total_pages := some doc.pages.length,
                    total_headings := some outline.length } }

/-- `extract_outline` (extractor.py). `openResult` is the outcome of
`fitz.open`; `bodyFault` is the environment oracle for the outer
`try/except` around the body (every pipeline step of the embedding is
total, so in the model a body fault can only be injected, never
produced). -/
def extract_outline (openResult : Except String Doc)
    (bodyFault : Option String) : OutlineResult :=
  match openResult with
  | .error e =>
    { title := "Error: Could not open PDF", outline := [],
      metadata := { error := some e } }
  | .ok doc =>
    match bodyFault with
    | some e =>
      { title := "Error: Processing failed", outline := [],
        metadata := { error := some e } }
    | none => processDoc doc

/-- The batch loop of `main.py`: every input yields exactly one result
record; no failure aborts the run. -/
def runBatch (docs : List (Except String Doc × Option String)) :
    List OutlineResult :=
  docs.map (fun d => extract_outline d.1 d.2)

/-! ### Property and spec-side definitions used by the claims -/

/-- The hierarchy invariant: walking the heading list, each level number
exceeds the previous one by at most 1, the level before the first heading
being `prev`. -/
def levelChainOk : Nat → List Heading → Bool
  | _, [] => true
  | prev, h :: t =>
    (levelNum h.level ≤ prev + 1) && levelChainOk (levelNum h.level) t

/-- The emphasis score exactly as the specification words it, with
"+1 per `!` occurrence" — the refinement comparand for the code's
`promoEmphasisScore`, whose exclamation summand is capped at 1. -/
def spec_emphasis_score (text : String) (font_size : ℚ) (is_bold : Bool)
    (is_centered : Bool) (avg_font_size : ℚ) : Nat :=
  (if avg_font_size + 2 < font_size then 3
   else if avg_font_size + 1 < font_size then 2 else 0) +
  (if is_bold then 2 else 0) +
  (if is_centered then 2 else 0) +
  (if pyIsUpper text.data ∧ 4 < text.length then 2
   else if pyIsTitle text.data then 1 else 0) +
  pyCountChar text '!'

/-- The per-entry mapping of the native-outline shortcut as the
specification words it: keep levels 1–3 as `H{level}`, clean the title,
drop entries whose cleaned title is empty or shorter than 2 characters,
clamp the page to at least 1. -/
def spec_toc_entry (item : Int × String × Int) : Option Heading :=
  if 1 ≤ item.1 ∧ item.1 ≤ 3 then
    let cleanedTitle := clean_heading_text item.2.1
    if 2 ≤ cleanedTitle.length then
      some { level := "H" ++ toString item.1, text := cleanedTitle,
             page := max 1 item.2.2 }
    else none
  else none

/-- Document-type decision exactly as the specification words it: count the
promotional/formal/academic indicator substrings and the matching
phone/url/address contact patterns, first rule wins. -/
def spec_detect_document_type (text_sample : String) : String :=
  let textLower := pyLowerS text_sample
  let promotionalCount :=
    promotional_indicators.countP (fun i => strContains textLower i)
  let academicCount :=
    academic_indicators.countP (fun i => strContains textLower i)
  let formalCount :=
    formal_indicators.countP (fun i => strContains textLower i)
  let contactCount :=
    ([phoneSearch textLower.data, urlSearch textLower.data,
      addrSearch textLower.data].countP (fun b => b))
  if 2 ≤ promotionalCount ∨ 2 ≤ contactCount then "promotional"
  else if 2 ≤ academicCount then "academic"
  else if 2 ≤ formalCount then "formal"
  else "general"

/-- The first list element fails `p`, vacuously for the empty list; applied
with `isPyWs` this is "does not start with whitespace". -/
def headNot (p : Char → Bool) : List Char → Bool
  | [] => true
  | c :: _ => !p c

/-- The last list element fails `p`, vacuously for the empty list. -/
def lastNot (p : Char → Bool) (l : List Char) : Bool :=
  headNot p l.reverse

/-- Whitespace normal form: every whitespace character is a space followed
by a non-whitespace character or the end. This is exactly the class of
fixed points of `collapseWs`. -/
def wsOk : List Char → Bool
  | [] => true
  | c :: t => if isPyWs c then (c = ' ') && headNot isPyWs t && wsOk t else wsOk t

/-- The cleaned text ends in a whitespace-plus-digits run, i.e.
`re.sub(r'\s+\d+$', '', ·)` would fire on it. -/
def hasPageNumSuffix (l : List Char) : Bool :=
  !(l.reverse.takeWhile Char.isDigit).isEmpty &&
    !((l.reverse.dropWhile Char.isDigit).takeWhile isPyWs).isEmpty

/-- Concrete span for the promotional-page example: size 12, not bold. -/
def promoSpanW (t : String) : Span :=
  { text := t, font := "Arial", flags := 0, size := 12 }

/-- Concrete line for the promotional-page example. -/
def promoLineW (t : String) : Line :=
  { spans := [promoSpanW t], bbox := [0, 0, 100, 20] }

/-- A promotional page with seven qualifying fragments (each centered and
title-case, hence emphasis score 3). -/
def promoBlocksW : List Block :=
  [{ lines := some (["Great Day One", "Great Day Two", "Great Day Three",
      "Great Day Four", "Great Day Five", "Great Day Six",
      "Great Day Seven"].map promoLineW),
     bbox := [0, 0, 100, 20] }]

/-- Document statistics for the promotional-page example. -/
def promoStatsW : Stats :=
  { avg_font_size := 12, max_font_size := 12, min_font_size := 12,
    avg_line_height := 15, total_text_blocks := 7 }

/-- Concrete first-page line for the title tie-break example. -/
def titleLineW (t : String) : Line :=
  { spans := [{ text := t, font := "Arial", flags := 0, size := 12 }],
    bbox := [0, 200, 100, 220] }

/-- First page with two equal-scoring title candidates, "AAAAA" scanned
before "ZZZZZ". -/
def titlePageW : Page :=
  { text := "", width := 100, height := 300,
    blocks := [{ lines := some [titleLineW "AAAAA", titleLineW "ZZZZZ"],
                 bbox := [0, 200, 100, 240] }] }

/-- Document around `titlePageW`, with no metadata title and no native
outline. -/
def titleDocW : Doc :=
  { metaTitle := none, toc := [], pages := [titlePageW] }

/-- Document whose native outline yields four entries at levels
[1, 2, 1, 3]. -/
def tocDocW : Doc :=
  { metaTitle := none,
    toc := [(1, "Introduction", 1), (2, "Background", 1), (1, "Methods", 2),
      (3, "Details", 2)],
    pages := [] }

/-! ## Theorems -/

/-- C10: for every heading list and every pair of threshold values,
`merge_similar_headings` returns the same result — the similarity threshold
is never read, only the exact case-folded text comparison happens. -/
theorem claim_C10 (hs : List Heading) (t1 t2 : ℚ) :
    merge_similar_headings hs t1 = merge_similar_headings hs t2 := rfl

/-- C2 counterexample: on an open failure `extract_outline` does not return
the empty title the claim asserts — the title is the fixed string
`"Error: Could not open PDF"`. -/
theorem counterexample_C2 :
    (extract_outline (Except.error "cannot open file") none).title ≠ "" := by
  decide

/-- C2 (amended): on an unrecoverable open failure `extract_outline`
returns title `"Error: Could not open PDF"` (not the empty string), the
empty outline, and the error message in the metadata; on a processing
failure it likewise returns title `"Error: Processing failed"`, the empty
outline and the message; the batch never aborts — every input yields
exactly one record. -/
theorem corrected_C2 (e : String) (bf : Option String) (d : Doc)
    (batch : List (Except String Doc × Option String)) :
    (extract_outline (Except.error e) bf).title =
      "Error: Could not open PDF" ∧
    (extract_outline (Except.error e) bf).outline = [] ∧
    (extract_outline (Except.error e) bf).metadata.error = some e ∧
    (extract_outline (Except.ok d) (some e)).title =
      "Error: Processing failed" ∧
    (extract_outline (Except.ok d) (some e)).outline = [] ∧
    (extract_outline (Except.ok d) (some e)).metadata.error = some e ∧
    (runBatch batch).length = batch.length := by
  refine ⟨rfl, rfl, rfl, rfl, rfl, rfl, ?_⟩
  simp [runBatch]

/-- C8: document-type detection agrees with the specification's decision
procedure — promotional on at least 2 promotional indicators or at least 2
contact-pattern hits, else academic on at least 2 academic indicators, else
formal on at least 2 formal indicators, else general, first rule wins. -/
theorem claim_C8 (s : String) :
    detect_document_type s = spec_detect_document_type s := by
  simp [detect_document_type, spec_detect_document_type,
    List.countP_eq_length_filter]

/-- Deduplication worker is idempotent for any ambient seen-set. -/
theorem mergeAux_idem (l : List Heading) :
    ∀ seen : List String, mergeAux seen (mergeAux seen l) = mergeAux seen l := by
  induction l with
  | nil => intro seen; rfl
  | cons h t ih =>
    intro seen
    by_cases hk : pyStripS (pyLowerS h.text) ∈ seen
    · simp [mergeAux, hk, ih seen]
    · simp [mergeAux, hk, ih (pyStripS (pyLowerS h.text) :: seen)]

/-- C9: deduplication (`merge_similar_headings`) is idempotent. -/
theorem claim_C9 (hs : List Heading) (t : ℚ) :
    merge_similar_headings (merge_similar_headings hs t) t =
      merge_similar_headings hs t := by
  unfold merge_similar_headings
  by_cases h0 : hs.isEmpty
  · simp [h0]
  · simp only [h0, if_false, Bool.false_eq_true]
    by_cases h1 : (mergeAux [] hs).isEmpty
    · simp [h1]
    · simp [h1, mergeAux_idem]

/-- C3 counterexample: the fragment `"aaa bbb!!!"` at average font size,
not bold, not centered, contains no high-priority phrase and is not contact
info; the claim's per-occurrence exclamation scoring gives it score 3, so
the claim accepts it, but `is_promotional_heading` rejects it (the code
awards a single point for the presence of `!`). -/
theorem counterexample_C3 :
    is_promotional_heading "aaa bbb!!!" 12 false false 12 = false ∧
    3 ≤ spec_emphasis_score "aaa bbb!!!" 12 false false 12 ∧
    is_contact_info "aaa bbb!!!" = false ∧
    high_priority_phrases.any
      (fun p => strContains (pyStripS (pyLowerS "aaa bbb!!!")) p) = false := by
  refine ⟨by decide, by decide, by decide, by decide⟩

/-- C3 (amended): for a promotional-path fragment containing no
high-priority phrase and no contact info, `is_promotional_heading` accepts
it iff its length is at least 3 and its emphasis score is at least 3, where
the exclamation summand is +1 when `!` occurs at all (not per
occurrence). -/
theorem corrected_C3 (text : String) (font_size avg_font_size : ℚ)
    (is_bold is_centered : Bool)
    (hph : high_priority_phrases.any
      (fun p => strContains (pyStripS (pyLowerS text)) p) = false)
    (hci : is_contact_info text = false) :
    is_promotional_heading text font_size is_bold is_centered avg_font_size
        = true ↔
      (3 ≤ text.length ∧
        3 ≤ promoEmphasisScore text font_size is_bold is_centered
          avg_font_size) := by
  simp only [is_promotional_heading, hph, hci]
  by_cases hlen : text.length < 3 <;> simp [hlen] <;> omega

/-- C3 witness: a concrete fragment satisfying the hypotheses on which the
amended equivalence holds. -/
theorem corrected_C3_witness :
    (high_priority_phrases.any
      (fun p => strContains (pyStripS (pyLowerS "WELCOME FRIENDS")) p)
        = false) ∧
    (is_contact_info "WELCOME FRIENDS" = false) ∧
    (is_promotional_heading "WELCOME FRIENDS" 15 false false 12 = true ↔
      (3 ≤ ("WELCOME FRIENDS" : String).length ∧
        3 ≤ promoEmphasisScore "WELCOME FRIENDS" 15 false false 12)) :=
  ⟨by decide, by decide,
    corrected_C3 "WELCOME FRIENDS" 15 12 false false (by decide) (by decide)⟩

instance : IsTotal Heading hierKeyLe :=
  ⟨by intro a b; unfold hierKeyLe; omega⟩

instance : IsTrans Heading hierKeyLe :=
  ⟨by intro a b c; unfold hierKeyLe; omega⟩

/-- The repair walk never lets a level number exceed its predecessor by
more than 1, provided every incoming level string is H1/H2/H3. -/
theorem repairWalk_chain (l : List Heading) :
    ∀ lastLevel : Nat,
      (∀ h ∈ l, h.level = "H1" ∨ h.level = "H2" ∨ h.level = "H3") →
      levelChainOk lastLevel (repairWalk lastLevel l) = true := by
  induction l with
  | nil => intro _ _; rfl
  | cons h t ih =>
    intro lastLevel hmem
    have hh := hmem h (by simp)
    have ht : ∀ x ∈ t, x.level = "H1" ∨ x.level = "H2" ∨ x.level = "H3" :=
      fun x hx => hmem x (List.mem_cons_of_mem h hx)
    have h3 : 1 ≤ levelNum h.level ∧ levelNum h.level ≤ 3 := by
      rcases hh with h1 | h1 | h1 <;> rw [h1] <;> exact ⟨by decide, by decide⟩
    by_cases hc : lastLevel + 1 < levelNum h.level
    · have hl : lastLevel ≤ 1 := by omega
      have hnum : levelNum ("H" ++ toString (lastLevel + 1)) = lastLevel + 1 := by
        interval_cases lastLevel <;> decide
      simp only [repairWalk, hc, if_true, levelChainOk, hnum]
      simp only [Bool.and_eq_true, decide_eq_true_eq]
      exact ⟨le_refl _, ih (lastLevel + 1) ht⟩
    · simp only [repairWalk, hc, if_false, levelChainOk]
      simp only [Bool.and_eq_true, decide_eq_true_eq]
      exact ⟨by omega, ih (levelNum h.level) ht⟩

/-- The repair walk keeps every level string in {H1, H2, H3}, provided every
incoming level string is. -/
theorem repairWalk_levels (l : List Heading) :
    ∀ lastLevel : Nat,
      (∀ h ∈ l, h.level = "H1" ∨ h.level = "H2" ∨ h.level = "H3") →
      ∀ h' ∈ repairWalk lastLevel l,
        h'.level = "H1" ∨ h'.level = "H2" ∨ h'.level = "H3" := by
  induction l with
  | nil => intro _ _ h' hh'; cases hh'
  | cons h t ih =>
    intro lastLevel hmem h' hh'
    have hh := hmem h (by simp)
    have ht : ∀ x ∈ t, x.level = "H1" ∨ x.level = "H2" ∨ x.level = "H3" :=
      fun x hx => hmem x (List.mem_cons_of_mem h hx)
    have h3 : levelNum h.level ≤ 3 := by
      rcases hh with h1 | h1 | h1 <;> rw [h1] <;> decide
    by_cases hc : lastLevel + 1 < levelNum h.level
    · simp only [repairWalk, hc, if_true, List.mem_cons] at hh'
      rcases hh' with hh' | hh'
      · have hl : lastLevel ≤ 1 := by omega
        subst hh'
        interval_cases lastLevel
        · left; rfl
        · right; left; rfl
      · exact ih (lastLevel + 1) ht h' hh'
    · simp only [repairWalk, hc, if_false, List.mem_cons] at hh'
      rcases hh' with hh' | hh'
      · subst hh'; exact hh
      · exact ih (levelNum h.level) ht h' hh'

/-- The repair walk changes only level strings: the (page, order) sort keys
are untouched. -/
theorem repairWalk_map_key (l : List Heading) :
    ∀ lastLevel : Nat,
      (repairWalk lastLevel l).map hierKey = l.map hierKey := by
  induction l with
  | nil => intro _; rfl
  | cons h t ih =>
    intro lastLevel
    by_cases hc : lastLevel + 1 < levelNum h.level <;>
      simp [repairWalk, hc, ih, hierKey]

/-- C1: after `validate_heading_hierarchy`, the (page,order)-sorted output
sequence never increases its level number by more than 1 step to step
(starting from 0), every level string remains in {H1, H2, H3}, and the
output is (page, order)-sorted. -/
theorem claim_C1 (l : List Heading)
    (hl : ∀ h ∈ l, h.level = "H1" ∨ h.level = "H2" ∨ h.level = "H3") :
    levelChainOk 0 (validate_heading_hierarchy l) = true ∧
    (∀ h ∈ validate_heading_hierarchy l,
      h.level = "H1" ∨ h.level = "H2" ∨ h.level = "H3") ∧
    (validate_heading_hierarchy l).Pairwise hierKeyLe := by
  unfold validate_heading_hierarchy
  by_cases h0 : l.isEmpty
  · rw [List.isEmpty_iff] at h0
    subst h0
    simp [levelChainOk]
  · simp only [h0, Bool.false_eq_true, if_false]
    have hs : ∀ h ∈ List.insertionSort hierKeyLe l,
        h.level = "H1" ∨ h.level = "H2" ∨ h.level = "H3" :=
      fun h hh =>
        hl h ((List.perm_insertionSort hierKeyLe l).mem_iff.mp hh)
    refine ⟨repairWalk_chain _ 0 hs, repairWalk_levels _ 0 hs, ?_⟩
    have hsorted : (List.insertionSort hierKeyLe l).Pairwise hierKeyLe :=
      List.sorted_insertionSort hierKeyLe l
    have hmap : ((List.insertionSort hierKeyLe l).map hierKey).Pairwise
        (fun p q : Int × Int => p.1 < q.1 ∨ (p.1 = q.1 ∧ p.2 ≤ q.2)) := by
      rw [List.pairwise_map]
      exact hsorted
    rw [← repairWalk_map_key _ 0, List.pairwise_map] at hmap
    exact hmap

/-- C1 witness: a concrete heading list with an H2 start and an H3 jump;
the repaired output satisfies the chain, level-set and sortedness
properties. -/
theorem claim_C1_witness :
    (∀ h ∈ [({ level := "H2", text := "Background", page := 1 } : Heading),
            { level := "H3", text := "Deep Dive", page := 1 },
            { level := "H1", text := "Intro", page := 2 }],
      h.level = "H1" ∨ h.level = "H2" ∨ h.level = "H3") ∧
    (levelChainOk 0 (validate_heading_hierarchy
      [{ level := "H2", text := "Background", page := 1 },
       { level := "H3", text := "Deep Dive", page := 1 },
       { level := "H1", text := "Intro", page := 2 }]) = true ∧
    (∀ h ∈ validate_heading_hierarchy
      [{ level := "H2", text := "Background", page := 1 },
       { level := "H3", text := "Deep Dive", page := 1 },
       { level := "H1", text := "Intro", page := 2 }],
      h.level = "H1" ∨ h.level = "H2" ∨ h.level = "H3") ∧
    (validate_heading_hierarchy
      [{ level := "H2", text := "Background", page := 1 },
       { level := "H3", text := "Deep Dive", page := 1 },
       { level := "H1", text := "Intro", page := 2 }]).Pairwise hierKeyLe) :=
  ⟨by decide, claim_C1 _ (by decide)⟩

instance : IsTotal PromoCandidate promoImpRel :=
  ⟨fun a b => le_total b.importance a.importance⟩

instance : IsTrans PromoCandidate promoImpRel :=
  ⟨fun _ _ _ hab hbc => le_trans hbc hab⟩

/-- A list of length five is an explicit five-element list. -/
theorem list_eq_of_length_five {α : Type} (l : List α) (h : l.length = 5) :
    ∃ a b c d e : α, l = [a, b, c, d, e] := by
  rcases l with _ | ⟨a, _ | ⟨b, _ | ⟨c, _ | ⟨d, _ | ⟨e, _ | ⟨f, rest⟩⟩⟩⟩⟩⟩ <;>
    simp only [List.length_cons, List.length_nil] at h <;> first
    | omega
    | exact ⟨a, b, c, d, e, rfl⟩

/-- C7: on a promotional page where at least 6 fragments qualify,
`extract_promotional_headings` returns exactly 5 entries, with levels
[H1, H2, H2, H3, H3] down the ranks, whose texts are those of the top five
importance-sorted candidates, in non-increasing importance order. -/
theorem claim_C7 (blocks : List Block) (page_num : Int)
    (page_width page_height : ℚ) (stats : Stats) (seen : List String)
    (h6 : 6 ≤ (promoCandidates blocks page_num page_width page_height stats
      seen).length) :
    (extract_promotional_headings blocks page_num page_width page_height
      stats seen).length = 5 ∧
    (extract_promotional_headings blocks page_num page_width page_height
      stats seen).map Heading.level = ["H1", "H2", "H2", "H3", "H3"] ∧
    (extract_promotional_headings blocks page_num page_width page_height
      stats seen).map Heading.text =
      ((List.insertionSort promoImpRel (promoCandidates blocks page_num
        page_width page_height stats seen)).take 5).map
          PromoCandidate.text ∧
    ((List.insertionSort promoImpRel (promoCandidates blocks page_num
      page_width page_height stats seen)).take 5).Pairwise
        (fun a b => b.importance ≤ a.importance) := by
  have hlen : (List.insertionSort promoImpRel (promoCandidates blocks
      page_num page_width page_height stats seen)).length =
      (promoCandidates blocks page_num page_width page_height stats
        seen).length :=
    (List.perm_insertionSort _ _).length_eq
  have h5 : ((List.insertionSort promoImpRel (promoCandidates blocks
      page_num page_width page_height stats seen)).take 5).length = 5 := by
    rw [List.length_take]
    omega
  obtain ⟨a, b, c, d, e, heq⟩ := list_eq_of_length_five _ h5
  have hout : extract_promotional_headings blocks page_num page_width
      page_height stats seen =
      ((List.insertionSort promoImpRel (promoCandidates blocks page_num
        page_width page_height stats seen)).take 5).enum.map (fun ic =>
          { level := promoLevelOfRank ic.1, text := ic.2.text,
            page := ic.2.page, order := none }) := rfl
  have hpw : ((List.insertionSort promoImpRel (promoCandidates blocks
      page_num page_width page_height stats seen)).take 5).Pairwise
        promoImpRel :=
    List.Pairwise.sublist (List.take_sublist 5 _)
      (List.sorted_insertionSort promoImpRel _)
  refine ⟨?_, ?_, ?_, hpw⟩
  · rw [hout, heq]; rfl
  · rw [hout, heq]; rfl
  · rw [hout, heq]; rfl

/-- C7 witness: the concrete promotional page `promoBlocksW` has 7
qualifying fragments; extraction returns 5 entries with the level pattern
and importance order of the claim. -/
theorem claim_C7_witness :
    6 ≤ (promoCandidates promoBlocksW 1 100 300 promoStatsW []).length ∧
    ((extract_promotional_headings promoBlocksW 1 100 300 promoStatsW
      []).length = 5 ∧
    (extract_promotional_headings promoBlocksW 1 100 300 promoStatsW
      []).map Heading.level = ["H1", "H2", "H2", "H3", "H3"] ∧
    (extract_promotional_headings promoBlocksW 1 100 300 promoStatsW
      []).map Heading.text =
      ((List.insertionSort promoImpRel (promoCandidates promoBlocksW 1 100
        300 promoStatsW [])).take 5).map PromoCandidate.text ∧
    ((List.insertionSort promoImpRel (promoCandidates promoBlocksW 1 100
      300 promoStatsW [])).take 5).Pairwise
        (fun a b => b.importance ≤ a.importance)) :=
  ⟨by decide, claim_C7 promoBlocksW 1 100 300 promoStatsW [] (by decide)⟩

/-- The TOC extraction is exactly the specification's per-entry map over
the native outline, in native order. -/
theorem detect_outline_eq_spec (toc : List (Int × String × Int)) :
    detect_outline_from_toc toc = toc.filterMap spec_toc_entry := by
  unfold detect_outline_from_toc
  congr 1
  funext item
  unfold spec_toc_entry
  by_cases hlvl : 1 ≤ item.1 ∧ item.1 ≤ 3
  · simp only [hlvl, if_true]
    by_cases hlen : 2 ≤ (clean_heading_text item.2.1).length
    · have hne : clean_heading_text item.2.1 ≠ "" := by
        intro hcontra
        rw [hcontra] at hlen
        simp at hlen
      simp [hlen, hne, Nat.lt_iff_add_one_le]
    · have : ¬(clean_heading_text item.2.1 ≠ "" ∧
          1 < (clean_heading_text item.2.1).length) := by
        rintro ⟨-, hgt⟩
        omega
      simp [hlen, this]
  · simp [hlvl]

/-- C6: whenever the native outline yields at least 3 entries,
`processDoc` returns exactly those entries — the native-order per-entry map
(level→H{level}, cleaned titles, short titles dropped, pages clamped to
≥ 1) — with no hierarchy repair, deduplication, ranking or truncation
applied, the title still coming from `extract_title`, under extraction
method `"toc"`. -/
theorem claim_C6 (d : Doc)
    (h : 3 ≤ (detect_outline_from_toc d.toc).length) :
    (processDoc d).outline = d.toc.filterMap spec_toc_entry ∧
    (processDoc d).title = extract_title d none ∧
    (processDoc d).metadata.extraction_method = some "toc" := by
  have hbody : processDoc d =
      { title := extract_title d none,
        outline := detect_outline_from_toc d.toc,
        metadata := { extraction_method := some "toc",
                      total_pages := some d.pages.length } } := by
    unfold processDoc
    simp only [h, if_true]
  rw [hbody]
  exact ⟨detect_outline_eq_spec d.toc, rfl, rfl⟩

/-- C6 witness: a native outline with levels [1, 2, 1, 3] comes back as
[H1, H2, H1, H3] in native order — in particular the 2→1→3 shape survives,
which hierarchy repair would have flattened. -/
theorem claim_C6_witness :
    3 ≤ (detect_outline_from_toc tocDocW.toc).length ∧
    (processDoc tocDocW).outline =
      [{ level := "H1", text := "Introduction", page := 1 },
       { level := "H2", text := "Background", page := 1 },
       { level := "H1", text := "Methods", page := 2 },
       { level := "H3", text := "Details", page := 2 }] ∧
    (processDoc tocDocW).metadata.extraction_method = some "toc" :=
  ⟨by decide,
    ((claim_C6 tocDocW (by decide)).1).trans (by decide),
    (claim_C6 tocDocW (by decide)).2.2⟩

/-- Negation of the Python tuple `<` is the reversed non-strict tuple
order. -/
theorem not_pyPairLt_iff (a b : ℚ × String) :
    ¬pyPairLt a b ↔ (b.1 < a.1 ∨ (b.1 = a.1 ∧ b.2.data ≤ a.2.data)) := by
  unfold pyPairLt
  constructor
  · intro h
    push_neg at h
    rcases lt_trichotomy a.1 b.1 with h1 | h1 | h1
    · exact absurd h1 (not_lt_of_le h.1)
    · exact Or.inr ⟨h1.symm, h.2 h1⟩
    · exact Or.inl h1
  · rintro (h1 | ⟨h1, h2⟩)
    · rintro (h3 | ⟨h3, -⟩)
      · exact absurd (lt_trans h1 h3) (lt_irrefl _)
      · rw [h3] at h1; exact lt_irrefl _ h1
    · rintro (h3 | ⟨-, h4⟩)
      · rw [h1] at h3; exact lt_irrefl _ h3
      · exact absurd h4 (not_lt_of_le h2)

instance : IsTotal (ℚ × String) titleDescRel := by
  constructor
  intro a b
  unfold titleDescRel
  rw [not_pyPairLt_iff, not_pyPairLt_iff]
  rcases lt_trichotomy a.1 b.1 with h | h | h
  · exact Or.inr (Or.inl h)
  · rcases le_total a.2.data b.2.data with h2 | h2
    · exact Or.inr (Or.inr ⟨h, h2⟩)
    · exact Or.inl (Or.inr ⟨h.symm, h2⟩)
  · exact Or.inl (Or.inl h)

instance : IsTrans (ℚ × String) titleDescRel := by
  constructor
  intro a b c hab hbc
  unfold titleDescRel at *
  rw [not_pyPairLt_iff] at *
  rcases hab with h1 | ⟨h1, h1'⟩ <;> rcases hbc with h2 | ⟨h2, h2'⟩
  · exact Or.inl (lt_trans h2 h1)
  · exact Or.inl (h2 ▸ h1)
  · exact Or.inl (h1 ▸ h2)
  · exact Or.inr ⟨h2.trans h1, h2'.trans h1'⟩

/-- The head of a stable insertion sort under a total transitive comparison
belongs to the list and dominates every element. -/
theorem insertionSort_head_glb {α : Type} (r : α → α → Prop) [DecidableRel r]
    [IsTotal α r] [IsTrans α r] (l : List α) (c : α) (tl : List α)
    (h : List.insertionSort r l = c :: tl) :
    c ∈ l ∧ ∀ x ∈ l, r c x := by
  have hsorted : (c :: tl).Pairwise r := by
    rw [← h]; exact List.sorted_insertionSort r l
  have hperm : (c :: tl).Perm l := by
    rw [← h]; exact List.perm_insertionSort r l
  refine ⟨hperm.mem_iff.mp (by simp), ?_⟩
  intro x hx
  rcases List.mem_cons.mp (hperm.mem_iff.mpr hx) with rfl | hx'
  · rcases IsTotal.total (r := r) x x with h | h <;> exact h
  · exact (List.pairwise_cons.mp hsorted).1 x hx'

/-- C4 counterexample: two first-page lines "AAAAA" then "ZZZZZ" score
equally (6 each), yet the fallback returns "ZZZZZ" — the tie goes to the
lexicographically greater text, not to the earlier-scanned candidate as the
claim states. -/
theorem counterexample_C4 :
    titleCandidates titlePageW (calculate_text_stats titlePageW.blocks) =
      [(6, "AAAAA"), (6, "ZZZZZ")] ∧
    extract_title titleDocW none = "ZZZZZ" := by
  refine ⟨by decide, by decide⟩

/-- C4 (amended): the first-page fallback returns a qualifying candidate of
maximal score, and among the maximal-score candidates the one with the
lexicographically greatest text (Python tuple sort on (score, text)
descending); the empty string is returned when no candidate qualifies. -/
theorem corrected_C4 (d : Doc) (page : Page) (rest : List Page)
    (stats? : Option Stats) (hp : d.pages = page :: rest) :
    (titleCandidates page (stats?.getD (calculate_text_stats page.blocks))
        = [] →
      extract_title_fallback d stats? = "") ∧
    (titleCandidates page (stats?.getD (calculate_text_stats page.blocks))
        ≠ [] →
      ∃ c ∈ titleCandidates page
          (stats?.getD (calculate_text_stats page.blocks)),
        extract_title_fallback d stats? = c.2 ∧
        (∀ c' ∈ titleCandidates page
            (stats?.getD (calculate_text_stats page.blocks)), c'.1 ≤ c.1) ∧
        (∀ c' ∈ titleCandidates page
            (stats?.getD (calculate_text_stats page.blocks)),
          c'.1 = c.1 → c'.2.data ≤ c.2.data)) := by
  have hfb : extract_title_fallback d stats? =
      match List.insertionSort titleDescRel (titleCandidates page
        (stats?.getD (calculate_text_stats page.blocks))) with
      | [] => ""
      | c :: _ => c.2 := by
    unfold extract_title_fallback
    rw [hp]
    rcases stats? with _ | s <;> rfl
  constructor
  · intro hemp
    rw [hfb, hemp]
    rfl
  · intro hne
    have hlen : (List.insertionSort titleDescRel (titleCandidates page
        (stats?.getD (calculate_text_stats page.blocks)))).length ≠ 0 := by
      rw [(List.perm_insertionSort titleDescRel _).length_eq]
      simpa [List.length_eq_zero] using hne
    rcases hs : List.insertionSort titleDescRel (titleCandidates page
        (stats?.getD (calculate_text_stats page.blocks))) with _ | ⟨c, tl⟩
    · rw [hs] at hlen; simp at hlen
    · obtain ⟨hmem, hdom⟩ := insertionSort_head_glb titleDescRel _ c tl hs
      refine ⟨c, hmem, ?_, ?_, ?_⟩
      · rw [hfb, hs]
      · intro c' hc'
        rcases (not_pyPairLt_iff c c').mp (hdom c' hc') with h | ⟨h, -⟩
        · exact le_of_lt h
        · exact le_of_eq h
      · intro c' hc' hceq
        rcases (not_pyPairLt_iff c c').mp (hdom c' hc') with h | ⟨-, h2⟩
        · exact absurd hceq (ne_of_lt h)
        · exact h2

/-- C4 witness: the concrete two-candidate page instantiates the amended
statement. -/
theorem corrected_C4_witness :
    titleDocW.pages = titlePageW :: [] ∧
    ((titleCandidates titlePageW
        ((none : Option Stats).getD
          (calculate_text_stats titlePageW.blocks)) = [] →
      extract_title_fallback titleDocW none = "") ∧
    (titleCandidates titlePageW
        ((none : Option Stats).getD
          (calculate_text_stats titlePageW.blocks)) ≠ [] →
      ∃ c ∈ titleCandidates titlePageW
          ((none : Option Stats).getD
            (calculate_text_stats titlePageW.blocks)),
        extract_title_fallback titleDocW none = c.2 ∧
        (∀ c' ∈ titleCandidates titlePageW
            ((none : Option Stats).getD
              (calculate_text_stats titlePageW.blocks)), c'.1 ≤ c.1) ∧
        (∀ c' ∈ titleCandidates titlePageW
            ((none : Option Stats).getD
              (calculate_text_stats titlePageW.blocks)),
          c'.1 = c.1 → c'.2.data ≤ c.2.data))) :=
  ⟨rfl, corrected_C4 titleDocW titlePageW [] none rfl⟩

/-- Dropping the `p`-prefix leaves a list not starting with a `p`-char. -/
theorem headNot_dropWhile (p : Char → Bool) (l : List Char) :
    headNot p (l.dropWhile p) = true := by
  induction l with
  | nil => rfl
  | cons c t ih =>
    by_cases hc : p c
    · simpa [List.dropWhile_cons, hc] using ih
    · simp [List.dropWhile_cons, hc, headNot]

/-- `dropWhile` is a `drop`. -/
theorem dropWhile_eq_drop_ex (p : Char → Bool) (l : List Char) :
    ∃ n, l.dropWhile p = l.drop n := by
  induction l with
  | nil => exact ⟨0, rfl⟩
  | cons c t ih =>
    by_cases hc : p c
    · obtain ⟨n, hn⟩ := ih
      exact ⟨n + 1, by simp [List.dropWhile_cons, hc, hn]⟩
    · exact ⟨0, by simp [List.dropWhile_cons, hc]⟩

/-- `headNot` is preserved by `take`. -/
theorem headNot_take (p : Char → Bool) (l : List Char) (n : Nat)
    (h : headNot p l = true) : headNot p (l.take n) = true := by
  cases l <;> cases n <;> simp_all [headNot]

/-- `wsOk` ignores its head. -/
theorem wsOk_tail (c : Char) (t : List Char) (h : wsOk (c :: t) = true) :
    wsOk t = true := by
  unfold wsOk at h
  by_cases hc : isPyWs c <;> simp [hc] at h <;> tauto

/-- `wsOk` is preserved by `drop`. -/
theorem wsOk_drop (l : List Char) : ∀ n, wsOk l = true →
    wsOk (l.drop n) = true := by
  induction l with
  | nil => intro n _; simp [wsOk]
  | cons c t ih =>
    intro n h
    cases n with
    | zero => simpa using h
    | succ n => exact ih n (wsOk_tail c t h)

/-- `wsOk` is preserved by `take`: truncation can only turn "followed by a
non-whitespace character" into "followed by the end". -/
theorem wsOk_take (l : List Char) : ∀ n, wsOk l = true →
    wsOk (l.take n) = true := by
  induction l with
  | nil => intro n _; simp [wsOk]
  | cons c t ih =>
    intro n h
    cases n with
    | zero => rfl
    | succ n =>
      rw [List.take_succ_cons]
      unfold wsOk at h ⊢
      by_cases hc : isPyWs c
      · simp only [hc, if_true, Bool.and_eq_true] at h ⊢
        exact ⟨⟨h.1.1, headNot_take _ _ _ h.1.2⟩, ih n h.2⟩
      · simp only [hc, if_false, Bool.false_eq_true] at h ⊢
        exact ih n h

/-- Reversing, dropping a suffix length, and reversing back is a `take`. -/
theorem revDropRev (l : List Char) (n : Nat) :
    (l.reverse.drop n).reverse = l.take (l.length - n) := by
  rw [List.drop_reverse]
  simp

/-- `wsOk` is preserved by stripping any trailing run. -/
theorem wsOk_dropTrailRun (p : Char → Bool) (l : List Char)
    (h : wsOk l = true) : wsOk (dropTrailRun p l) = true := by
  obtain ⟨n, hn⟩ := dropWhile_eq_drop_ex p l.reverse
  unfold dropTrailRun
  rw [hn, revDropRev]
  exact wsOk_take l _ h

/-- A `wsOk` list never ends with a newline (its whitespace characters are
all plain spaces). -/
theorem wsOk_getLast_ne_nl (l : List Char) (h : wsOk l = true) :
    l.getLast? ≠ some '\n' := by
  induction l with
  | nil => simp
  | cons c t ih =>
    cases t with
    | nil =>
      unfold wsOk at h
      by_cases hc : isPyWs c
      · simp only [hc, if_true, Bool.and_eq_true, decide_eq_true_eq] at h
        simp [h.1.1]
      · intro hcontra
        simp only [List.getLast?_singleton, Option.some.injEq] at hcontra
        rw [hcontra] at hc
        exact hc (by decide)
    | cons d t' =>
      rw [List.getLast?_cons_cons]
      exact ih (wsOk_tail c _ h)

/-- In run mode the collapse worker starts its output with a non-whitespace
character (the run's replacement space was already emitted). -/
theorem headNot_collapseAux_true (l : List Char) :
    headNot isPyWs (collapseWsAux true l) = true := by
  induction l with
  | nil => rfl
  | cons c t ih =>
    by_cases hc : isPyWs c
    · simpa [collapseWsAux, hc] using ih
    · simp [collapseWsAux, hc, headNot]

/-- Whitespace collapsing always outputs a `wsOk` list. -/
theorem wsOk_collapseAux (l : List Char) : ∀ b : Bool,
    wsOk (collapseWsAux b l) = true := by
  induction l with
  | nil => intro b; rfl
  | cons c t ih =>
    intro b
    by_cases hc : isPyWs c
    · cases b
      · simp only [collapseWsAux, hc, if_true]
        unfold wsOk
        simp [headNot_collapseAux_true, ih true]
      · simpa [collapseWsAux, hc] using ih true
    · simp only [collapseWsAux, hc, if_false]
      unfold wsOk
      simp [hc, ih false]

/-- `wsOk` lists are fixed points of whitespace collapsing (in run mode the
list must additionally not start with whitespace). -/
theorem collapseAux_fixpoint (l : List Char) (h : wsOk l = true) :
    collapseWsAux false l = l ∧
      (headNot isPyWs l = true → collapseWsAux true l = l) := by
  induction l with
  | nil => exact ⟨rfl, fun _ => rfl⟩
  | cons c t ih =>
    by_cases hc : isPyWs c
    · have h' := h
      unfold wsOk at h'
      rw [if_pos hc] at h'
      simp only [Bool.and_eq_true, decide_eq_true_eq] at h'
      obtain ⟨⟨hsp, hhn⟩, hwt⟩ := h'
      constructor
      · simp only [collapseWsAux, hc, if_true]
        rw [(ih hwt).2 hhn, hsp]
        simp
      · intro hhead
        simp [headNot, hc] at hhead
    · have hwt : wsOk t = true := by
        unfold wsOk at h
        rwa [if_neg hc] at h
      constructor
      · simp [collapseWsAux, hc, (ih hwt).1]
      · intro _
        simp [collapseWsAux, hc, (ih hwt).1]

/-- A list not starting with a `p`-character is untouched by
`dropWhile p`. -/
theorem dropWhile_of_headNot (p : Char → Bool) (l : List Char)
    (h : headNot p l = true) : l.dropWhile p = l := by
  cases l with
  | nil => rfl
  | cons c t =>
    simp only [headNot, Bool.not_eq_true'] at h
    simp [List.dropWhile_cons, h]

/-- A list not ending with a `p`-character is untouched by
`dropTrailRun p`. -/
theorem dropTrailRun_of_lastNot (p : Char → Bool) (l : List Char)
    (h : lastNot p l = true) : dropTrailRun p l = l := by
  unfold lastNot at h
  unfold dropTrailRun
  rw [dropWhile_of_headNot p l.reverse h, List.reverse_reverse]

/-- A list with non-whitespace endpoints is untouched by `pyStrip`. -/
theorem pyStrip_of_notWs (l : List Char) (hh : headNot isPyWs l = true)
    (hl : lastNot isPyWs l = true) : pyStrip l = l := by
  unfold lastNot at hl
  unfold pyStrip
  rw [dropWhile_of_headNot _ _ hh, dropWhile_of_headNot _ _ hl,
    List.reverse_reverse]

/-- `wsOk` is preserved by `subNumCore` (its non-trivial branch is a
`take`). -/
theorem wsOk_subNumCore (l : List Char) (h : wsOk l = true) :
    wsOk (subNumCore l) = true := by
  unfold subNumCore
  by_cases hcond : (l.reverse.takeWhile Char.isDigit).isEmpty = true ∨
      ((l.reverse.dropWhile Char.isDigit).takeWhile isPyWs).isEmpty = true
  · have : ((l.reverse.takeWhile Char.isDigit).isEmpty ||
        ((l.reverse.dropWhile Char.isDigit).takeWhile isPyWs).isEmpty) =
        true := by
      rcases hcond with hc | hc <;> simp [hc]
    simpa [this] using h
  · have : ((l.reverse.takeWhile Char.isDigit).isEmpty ||
        ((l.reverse.dropWhile Char.isDigit).takeWhile isPyWs).isEmpty) =
        false := by
      push_neg at hcond
      simp [hcond.1, hcond.2]
    simp only [this, Bool.false_eq_true, if_false]
    obtain ⟨n1, h1⟩ := dropWhile_eq_drop_ex Char.isDigit l.reverse
    obtain ⟨n2, h2⟩ := dropWhile_eq_drop_ex isPyWs (l.reverse.drop n1)
    rw [h1, h2, List.drop_drop, revDropRev]
    exact wsOk_take l _ h

/-- `wsOk` is preserved by `pyStrip`. -/
theorem wsOk_pyStrip (l : List Char) (h : wsOk l = true) :
    wsOk (pyStrip l) = true := by
  unfold pyStrip
  obtain ⟨n1, h1⟩ := dropWhile_eq_drop_ex isPyWs l
  rw [h1]
  obtain ⟨n2, h2⟩ := dropWhile_eq_drop_ex isPyWs (l.drop n1).reverse
  rw [h2, revDropRev]
  exact wsOk_take _ _ (wsOk_drop l n1 h)

/-- `pyStrip` output never starts with whitespace. -/
theorem headNot_pyStrip (l : List Char) :
    headNot isPyWs (pyStrip l) = true := by
  unfold pyStrip
  obtain ⟨n2, h2⟩ := dropWhile_eq_drop_ex isPyWs (l.dropWhile isPyWs).reverse
  rw [h2, revDropRev]
  exact headNot_take _ _ _ (headNot_dropWhile isPyWs l)

/-- `pyStrip` output never ends with whitespace. -/
theorem lastNot_pyStrip (l : List Char) :
    lastNot isPyWs (pyStrip l) = true := by
  unfold lastNot pyStrip
  rw [List.reverse_reverse]
  exact headNot_dropWhile isPyWs _

/-- Every output of `clean_heading_text` is whitespace-normalised with
non-whitespace endpoints. -/
theorem clean_props (s : String) :
    wsOk (clean_heading_text s).data = true ∧
    headNot isPyWs (clean_heading_text s).data = true ∧
    lastNot isPyWs (clean_heading_text s).data = true := by
  unfold clean_heading_text
  by_cases hs : s = ""
  · simp [hs, wsOk, headNot, lastNot]
  · rw [if_neg hs]
    have hwv : wsOk (collapseWs (pyStrip s.data)) = true :=
      wsOk_collapseAux _ false
    have hsp : subPunctEnd (collapseWs (pyStrip s.data)) =
        dropTrailRun isTrailPunct (collapseWs (pyStrip s.data)) := by
      unfold subPunctEnd
      rw [if_neg (wsOk_getLast_ne_nl _ hwv)]
    have hw1 : wsOk (subPunctEnd (collapseWs (pyStrip s.data))) = true := by
      rw [hsp]
      exact wsOk_dropTrailRun _ _ hwv
    have hsn : subNumEnd (subPunctEnd (collapseWs (pyStrip s.data))) =
        subNumCore (subPunctEnd (collapseWs (pyStrip s.data))) := by
      unfold subNumEnd
      rw [if_neg (wsOk_getLast_ne_nl _ hw1)]
    have hw2 : wsOk (subNumEnd (subPunctEnd (collapseWs
        (pyStrip s.data)))) = true := by
      rw [hsn]
      exact wsOk_subNumCore _ hw1
    exact ⟨wsOk_pyStrip _ hw2, headNot_pyStrip _, lastNot_pyStrip _⟩

/-- A whitespace-normalised string with non-whitespace endpoints that ends
neither in trailing punctuation nor in a page-number suffix is a fixed
point of `clean_heading_text`. -/
theorem clean_fixpoint (t : String) (hws : wsOk t.data = true)
    (hh : headNot isPyWs t.data = true) (hl : lastNot isPyWs t.data = true)
    (hA : lastNot isTrailPunct t.data = true)
    (hB : hasPageNumSuffix t.data = false) :
    clean_heading_text t = t := by
  unfold clean_heading_text
  by_cases ht : t = ""
  · rw [if_pos ht, ht]
  · rw [if_neg ht]
    have hnl : t.data.getLast? ≠ some '\n' := wsOk_getLast_ne_nl _ hws
    have h1 : pyStrip t.data = t.data := pyStrip_of_notWs _ hh hl
    have h2 : collapseWs t.data = t.data := (collapseAux_fixpoint t.data hws).1
    have h3 : subPunctEnd t.data = t.data := by
      unfold subPunctEnd
      rw [if_neg hnl]
      exact dropTrailRun_of_lastNot _ _ hA
    have h4 : subNumEnd t.data = t.data := by
      unfold subNumEnd
      rw [if_neg hnl]
      unfold subNumCore
      unfold hasPageNumSuffix at hB
      have hcond : ((t.data.reverse.takeWhile Char.isDigit).isEmpty ||
          ((t.data.reverse.dropWhile Char.isDigit).takeWhile
            isPyWs).isEmpty) = true := by
        revert hB
        cases (t.data.reverse.takeWhile Char.isDigit).isEmpty <;>
          cases ((t.data.reverse.dropWhile Char.isDigit).takeWhile
            isPyWs).isEmpty <;> simp
      simp [hcond]
    rw [h1, h2, h3, h4, h1]

/-- C5 counterexample: cleaning is not idempotent — stripping the trailing
dots of `"ab. 12"` first exposes the page-number suffix `" 12"`, whose
removal exposes the dot of `"ab."`, which a second application strips. -/
theorem counterexample_C5 :
    clean_heading_text (clean_heading_text "ab. 12") ≠
      clean_heading_text "ab. 12" := by
  decide

/-- C5 (amended): `clean_heading_text` is idempotent on every string whose
cleaned form ends neither in a `.`/`-`/`_` character nor in a
whitespace-plus-digits page-number suffix; in general a second application
can strip further. -/
theorem corrected_C5 (s : String)
    (hA : lastNot isTrailPunct (clean_heading_text s).data = true)
    (hB : hasPageNumSuffix (clean_heading_text s).data = false) :
    clean_heading_text (clean_heading_text s) = clean_heading_text s := by
  obtain ⟨hws, hh, hl⟩ := clean_props s
  exact clean_fixpoint _ hws hh hl hA hB

/-- C5 witness: a concrete messy string whose cleaned form has no deceptive
suffix; the amended idempotence holds on it. -/
theorem corrected_C5_witness :
    lastNot isTrailPunct (clean_heading_text "  Overview   of Results  ").data
      = true ∧
    hasPageNumSuffix (clean_heading_text "  Overview   of Results  ").data
      = false ∧
    clean_heading_text (clean_heading_text "  Overview   of Results  ") =
      clean_heading_text "  Overview   of Results  " :=
  ⟨by decide, by decide,
    corrected_C5 "  Overview   of Results  " (by decide) (by decide)⟩

end PdfOutline
